import Mathlib

/-!
Shallow embedding of `src/script.js` of the threat-modeling repository.

The program maintains an HTML table of attack surfaces.  We model the table
as a header (list of header-cell texts) and body rows (each a list of
cell texts).  The two event handlers of `script.js` — the "add row" click
handler and the "submit to AI" click handler — become pure functions on
this state; the network is an explicit environment value fed to `submit`.
-/

namespace ThreatModeling

/-- One entry of the fixed `categories` array of `script.js`. -/
structure Category where
  id : String
  description : String
deriving DecidableEq, Repr

/-- The fixed 12-entry taxonomy, in the declaration order of `script.js`. -/
def categories : List Category :=
  [ ⟨"information_leakage", "Exposure of sensitive data via the surface."⟩,
    ⟨"data_integrity_violation", "Unauthorized modification/destruction of data."⟩,
    ⟨"control_plane_subversion", "Unauthorized modification/execution on the control plane."⟩,
    ⟨"denial_of_service", "Degradation or loss of availability."⟩,
    ⟨"illegitimate_use", "Abuse/misuse of resources beyond intended purpose."⟩,
    ⟨"entity_spoofing", "Masquerading as another principal/service."⟩,
    ⟨"forgery", "Fabricating messages/requests accepted as if from a trusted source."⟩,
    ⟨"bypassing_control", "Circumventing security controls (filtering, validation, authN/Z gates)."⟩,
    ⟨"authorization_violation", "Access beyond assigned permissions."⟩,
    ⟨"trojan", "Malicious/compromised components introduced via supply chain or artifact."⟩,
    ⟨"guessing", "Ability to deduce or predict sensitive values (e.g., keys, tokens, identifiers)."⟩,
    ⟨"repudiation", "Denying actions/transactions due to insufficient auditability or tamper-proof logging."⟩ ]

/-- JavaScript `String.prototype.trim` on the character list: drop leading and
trailing whitespace. -/
def trimChars (l : List Char) : List Char :=
  ((l.dropWhile Char.isWhitespace).reverse.dropWhile Char.isWhitespace).reverse

/-- JavaScript `String.prototype.trim`. -/
def jsTrim (s : String) : String := ⟨trimChars s.data⟩

/-- JavaScript `Array.prototype.join('\n')`: separator between consecutive
elements, empty string on the empty array. -/
def joinNl : List String → String
  | [] => ""
  | [a] => a
  | a :: b :: rest => a ++ "\n" ++ joinNl (b :: rest)

/-- The DOM table: header-row cells and body rows (lists of cell texts). -/
structure Table where
  header : List String
  rows : List (List String)
deriving DecidableEq, Repr

/-- The page as loaded: two input columns, no body rows (the output columns
of the header appear only after the first successful classification; the
two initial column titles are those of the repository README). -/
def initTable : Table := ⟨["Attack Surface", "Description"], []⟩

/-- The `add-row` click handler: `insertRow()` appends a row; two
`contenteditable` cells are always inserted, and two further (output) cells
when the header has more than 2 cells. -/
def addRow (t : Table) : Table :=
  { t with rows := t.rows ++ [["", ""] ++ (if 2 < t.header.length then ["", ""] else [])] }

/-- One element of the snapshot `rows` array built by the submit handler. -/
structure SnapRow where
  index : Nat
  surface : String
  description : String
deriving DecidableEq, Repr

/-- The snapshot `rows = Array.from(...).map((tr, idx) => ({index: idx,
surface: tr.cells[0].innerText.trim(), description: tr.cells[1].innerText.trim()}))`. -/
def snapshot (t : Table) : List SnapRow :=
  t.rows.enum.map fun p => ⟨p.1, jsTrim ((p.2.get? 0).getD ""), jsTrim ((p.2.get? 1).getD "")⟩

/-- `c.id + ': ' + c.description` of the prompt template. -/
def categoryLine (c : Category) : String := c.id ++ ": " ++ c.description

/-- A rendered attack-surface line of the prompt template. -/
def rowLine (r : SnapRow) : String :=
  "#" ++ toString r.index ++ ": " ++ r.surface ++ " - " ++ r.description

/-- The fixed text of the prompt template up to the taxonomy block. -/
def promptHeader : String :=
  "\nYou are a threat modeling assistant. For each attack surface below, identify applicable threat categories from this list and provide a brief description. Omit categories that do not apply. Respond with JSON only in the form:\n[\n  \x7b\"index\":0,\"threats\":[\x7b\"type\":\"<category_id>\",\"description\":\"<text>\"\x7d]\x7d\n]\n\nThreat Categories:\n"

/-- The fixed text of the prompt template between the taxonomy block and the
attack-surface block. -/
def promptMid : String := "\n\nAttack Surfaces:\n"

/-- The full prompt template literal of the submit handler. -/
def promptOf (snap : List SnapRow) : String :=
  promptHeader ++ joinNl (categories.map categoryLine) ++ promptMid
    ++ joinNl (snap.map rowLine) ++ "\n"

/-- One `{type, description}` object of a parsed classification response. -/
structure Threat where
  type : String
  description : String
deriving DecidableEq, Repr

/-- One `{index, threats}` object of a parsed classification response. -/
structure Entry where
  index : Nat
  threats : List Threat
deriving DecidableEq, Repr

/-- The single `fetch` request the submit handler issues. -/
structure Request where
  url : String
  method : String
  contentType : String
  authorization : String
  model : String
  input : String
  responseFormatType : String
deriving DecidableEq, Repr

/-- The hard-coded endpoint of the `fetch` call in `script.js`. -/
def baseUrl : String := "https://api.openai.com/v1/responses"

/-- The request built by the submit handler for a given (trimmed) key and
prompt. -/
def mkRequest (apiKey promptStr : String) : Request :=
  ⟨baseUrl, "POST", "application/json", "Bearer " ++ apiKey, "gpt-4o-mini",
    promptStr, "json_object"⟩

/-- The JSON body `data` of the HTTP response, as far as the handler reads
it: `data.error?.message`, and the inner payload
`JSON.parse(data.output[0].content[0].text)` — `none` when that expression
throws (missing output structure, or text that is not valid JSON). -/
structure Body where
  errorMsg : Option String
  payload : Option (List Entry)
deriving DecidableEq, Repr

/-- Outcome of `await res.json()`: it rejects (body not JSON) or yields a
body. -/
inductive BodyResult
  | parseFail (msg : String)
  | parsed (b : Body)
deriving DecidableEq, Repr

/-- The `fetch` response as far as the handler reads it. -/
structure HttpResponse where
  ok : Bool
  body : BodyResult
deriving DecidableEq, Repr

/-- Outcome of `await fetch(...)`: rejection (network failure) or a
response. -/
inductive FetchOutcome
  | netFail (msg : String)
  | got (r : HttpResponse)
deriving DecidableEq, Repr

/-- The TypeError message when `tr` is `undefined` in
`tr.cells[2].innerText = types` (response entry whose index has no row). -/
def cellsTypeError : String := "Cannot read properties of undefined (reading 'cells')"

/-- The TypeError message when a row exists but has no cell 2/3. -/
def innerTextTypeError : String := "Cannot set properties of undefined (setting 'innerText')"

/-- `data.error?.message || 'Request failed'` (JS `||`: an empty message is
falsy and falls back). -/
def orRequestFailed : Option String → String
  | some s => if s = "" then "Request failed" else s
  | none => "Request failed"

/-- `item.threats.map(t => t.type).join('\n')`. -/
def renderTypes (ts : List Threat) : String := joinNl (ts.map Threat.type)

/-- `item.threats.map(t => t.description).join('\n')`. -/
def renderDescs (ts : List Threat) : String := joinNl (ts.map Threat.description)

/-- The body of `parsed.forEach(item => ...)` for one entry: look the row up
by index, write the joined types into cell 2 and the joined descriptions
into cell 3; a missing row or missing cell raises a TypeError. -/
def applyEntry (rows : List (List String)) (e : Entry) :
    Except String (List (List String)) :=
  match rows.get? e.index with
  | none => .error cellsTypeError
  | some r =>
    if 4 ≤ r.length then
      .ok (rows.set e.index ((r.set 2 (renderTypes e.threats)).set 3 (renderDescs e.threats)))
    else .error innerTextTypeError

/-- `parsed.forEach(...)`: entries applied left to right; a thrown TypeError
aborts the loop, keeping the mutations already made, and is reported (it is
caught by the handler's outer `catch`). -/
def applyEntries (rows : List (List String)) :
    List Entry → List (List String) × Option String
  | [] => (rows, none)
  | e :: es =>
    match applyEntry rows e with
    | .error m => (rows, some m)
    | .ok rows2 => applyEntries rows2 es

/-- The header/body column insertion of the success path: when the header
still has 2 cells, append the two output header cells and give every body
row two further (empty) cells.  (`insertCell(2)`/`insertCell(3)` on a
two-cell row appends.) -/
def insertThreatColumns (t : Table) : Table :=
  if t.header.length = 2 then
    ⟨t.header ++ ["Threat Type", "Threat Description"], t.rows.map (· ++ ["", ""])⟩
  else t

/-- What one click of the submit handler leaves behind: the table, the text
of the error region (`none` when it stays cleared), and the request issued
(`none` when no network call was made). -/
structure SubmitResult where
  table : Table
  errorText : Option String
  request : Option Request
deriving DecidableEq, Repr

/-- The `submit-ai` click handler.  The credential is trimmed and checked;
then one `fetch` is issued and the outcome handled: `res.json()` runs
before the `res.ok` check, a non-ok status throws the provider message,
a missing/unparsable inner payload throws `'Failed to parse AI response.'`,
and otherwise the output columns are ensured and the entries applied. -/
def submit (t : Table) (apiKeyRaw : String) (outcome : FetchOutcome) : SubmitResult :=
  let apiKey := jsTrim apiKeyRaw
  if apiKey = "" then ⟨t, some "API key required.", none⟩
  else
    let req := mkRequest apiKey (promptOf (snapshot t))
    match outcome with
    | .netFail msg => ⟨t, some msg, some req⟩
    | .got r =>
      match r.body with
      | .parseFail msg => ⟨t, some msg, some req⟩
      | .parsed b =>
        if r.ok = false then ⟨t, some (orRequestFailed b.errorMsg), some req⟩
        else
          match b.payload with
          | none => ⟨t, some "Failed to parse AI response.", some req⟩
          | some entries =>
            let t1 := insertThreatColumns t
            let pr := applyEntries t1.rows entries
            ⟨⟨t1.header, pr.1⟩, pr.2, some req⟩

/-- The user-triggered operations that change the table. -/
inductive Op
  | addRowOp
  | submitOp (apiKey : String) (outcome : FetchOutcome)

/-- Effect of one operation on the table. -/
def step (t : Table) : Op → Table
  | .addRowOp => addRow t
  | .submitOp k o => (submit t k o).table

/-- The table after a sequence of operations from the freshly loaded page. -/
def run (ops : List Op) : Table := ops.foldl step initTable

/-- Whether a submission reaches the apply phase (credential present, fetch
succeeded, body parsed, status ok, inner payload parsed). -/
def reachesApply (apiKeyRaw : String) (o : FetchOutcome) : Bool :=
  !(jsTrim apiKeyRaw == "") &&
    match o with
    | .netFail _ => false
    | .got r =>
      r.ok &&
        match r.body with
        | .parseFail _ => false
        | .parsed b => b.payload.isSome

/-- Whether an operation is a submission that reaches the apply phase (a
successful classification); adding a row never is. -/
def opReachesApply : Op → Bool
  | .addRowOp => false
  | .submitOp k o => reachesApply k o

/-- Whether an outcome makes the submission fail before any table mutation:
fetch rejection, unparsable body, non-ok status, or missing/unparsable
inner payload. -/
def failsBeforeApply (o : FetchOutcome) : Bool :=
  match o with
  | .netFail _ => true
  | .got r =>
    match r.body with
    | .parseFail _ => true
    | .parsed b => !r.ok || b.payload.isNone

/-- Modelled from the spec: the spec's transport contract routes the single
POST to the override endpoint when one is supplied and to the default base
URL otherwise.  (Definition follows the spec's words, for comparison with
the URL the code actually uses.) -/
def specSubmitUrl (endpointOverride : Option String) : String :=
  endpointOverride.getD baseUrl

/-- A string with no leading and no trailing whitespace. -/
def noEdgeWs (s : String) : Prop :=
  (∀ c, s.data.head? = some c → c.isWhitespace = false) ∧
  (∀ c, s.data.getLast? = some c → c.isWhitespace = false)

/-- The column-alignment invariant of the table: the header has 2 or 4
cells and every body row has exactly as many cells as the header. -/
def aligned (t : Table) : Prop :=
  (t.header.length = 2 ∨ t.header.length = 4) ∧
  ∀ r ∈ t.rows, r.length = t.header.length

/- ### Helper lemmas -/

theorem dropWhile_head?_not (p : α → Bool) (l : List α) (a : α)
    (h : (l.dropWhile p).head? = some a) : p a = false := by
  induction l with
  | nil => simp [List.dropWhile] at h
  | cons b t ih =>
    rw [List.dropWhile_cons] at h
    by_cases hb : p b
    · rw [if_pos hb] at h
      exact ih h
    · rw [if_neg hb] at h
      simp only [List.head?_cons, Option.some.injEq] at h
      subst h
      exact Bool.eq_false_iff.mpr hb

theorem trimChars_head?_not (l : List Char) (c : Char)
    (h : (trimChars l).head? = some c) : c.isWhitespace = false := by
  unfold trimChars at h
  set l₁ := l.dropWhile Char.isWhitespace with hl₁
  set l₂ := l₁.reverse.dropWhile Char.isWhitespace with hl₂
  rw [List.head?_reverse] at h
  have hne : l₂ ≠ [] := by
    intro hnil
    rw [hnil] at h
    simp at h
  have hsplit : l₁.reverse.takeWhile Char.isWhitespace ++ l₂ = l₁.reverse :=
    List.takeWhile_append_dropWhile _ _
  have hlast : l₁.reverse.getLast? = some c := by
    rw [← hsplit, List.getLast?_append_of_ne_nil _ hne]
    exact h
  rw [List.getLast?_reverse] at hlast
  exact dropWhile_head?_not _ _ _ hlast

theorem trimChars_getLast?_not (l : List Char) (c : Char)
    (h : (trimChars l).getLast? = some c) : c.isWhitespace = false := by
  unfold trimChars at h
  rw [List.getLast?_reverse] at h
  exact dropWhile_head?_not _ _ _ h

theorem jsTrim_noEdgeWs (s : String) : noEdgeWs (jsTrim s) :=
  ⟨fun c hc => trimChars_head?_not s.data c hc,
   fun c hc => trimChars_getLast?_not s.data c hc⟩

theorem trimChars_of_allWs (l : List Char)
    (h : ∀ c ∈ l, c.isWhitespace = true) : trimChars l = [] := by
  unfold trimChars
  have h1 : l.dropWhile Char.isWhitespace = [] :=
    List.dropWhile_eq_nil_iff.mpr h
  rw [h1]
  simp

theorem jsTrim_of_allWs (s : String)
    (h : ∀ c ∈ s.data, c.isWhitespace = true) : jsTrim s = "" := by
  unfold jsTrim
  rw [trimChars_of_allWs s.data h]

theorem joinNl_infix_of_mem (x : String) (l : List String) (h : x ∈ l) :
    x.data <:+: (joinNl l).data := by
  induction l with
  | nil => cases h
  | cons a rest ih =>
    cases rest with
    | nil =>
      rw [List.mem_singleton] at h
      subst h
      exact List.infix_rfl
    | cons b rest' =>
      rw [List.mem_cons] at h
      rcases h with h | h
      · subst h
        rw [show joinNl (x :: b :: rest') = x ++ "\n" ++ joinNl (b :: rest') from rfl]
        rw [String.data_append, String.data_append]
        exact List.IsPrefix.isInfix
          ((List.prefix_append x.data "\n".data).trans
            (List.prefix_append _ (joinNl (b :: rest')).data))
      · have h2 := ih h
        refine h2.trans (List.IsSuffix.isInfix ?_)
        rw [show joinNl (a :: b :: rest') = a ++ "\n" ++ joinNl (b :: rest') from rfl]
        rw [String.data_append]
        exact List.suffix_append _ _

theorem catBlock_in_prompt (snap : List SnapRow) :
    (joinNl (categories.map categoryLine)).data <:+: (promptOf snap).data := by
  refine ⟨promptHeader.data,
    (promptMid ++ joinNl (snap.map rowLine) ++ "\n").data, ?_⟩
  simp [promptOf, String.data_append, List.append_assoc]

theorem rowBlock_in_prompt (snap : List SnapRow) :
    (joinNl (snap.map rowLine)).data <:+: (promptOf snap).data := by
  refine ⟨(promptHeader ++ joinNl (categories.map categoryLine) ++ promptMid).data,
    ("\n" : String).data, ?_⟩
  simp [promptOf, String.data_append, List.append_assoc]

theorem snapshot_map_index (t : Table) :
    (snapshot t).map SnapRow.index = List.range t.rows.length := by
  have h : (snapshot t).map SnapRow.index = t.rows.enum.map Prod.fst := by
    simp only [snapshot, List.map_map]
    rfl
  rw [h, List.enum_map_fst]

theorem snapshot_length (t : Table) : (snapshot t).length = t.rows.length := by
  simp [snapshot]

theorem snapshot_mem (t : Table) (r : SnapRow) (h : r ∈ snapshot t) :
    ∃ row ∈ t.rows, r.surface = jsTrim ((row.get? 0).getD "") ∧
      r.description = jsTrim ((row.get? 1).getD "") := by
  unfold snapshot at h
  rcases List.mem_map.1 h with ⟨p, hp, rfl⟩
  exact ⟨p.2, List.get?_mem (List.mem_enum_iff_get?.1 hp), rfl, rfl⟩

theorem snapshot_get? (t : Table) (i : Nat) (row : List String)
    (h : t.rows.get? i = some row) :
    (snapshot t).get? i =
      some ⟨i, jsTrim ((row.get? 0).getD ""), jsTrim ((row.get? 1).getD "")⟩ := by
  unfold snapshot
  rw [List.get?_map]
  have he : t.rows.enum.get? i = some (i, row) := by
    rw [List.get?_enum, h]
    rfl
  rw [he]
  rfl

theorem applyEntry_ok_of_valid (rows : List (List String)) (e : Entry)
    (r : List String) (hr : rows.get? e.index = some r) (h4 : 4 ≤ r.length) :
    applyEntry rows e =
      .ok (rows.set e.index
        ((r.set 2 (renderTypes e.threats)).set 3 (renderDescs e.threats))) := by
  unfold applyEntry
  rw [hr]
  simp [h4]

theorem applyEntry_get?_length (rows rows' : List (List String)) (e : Entry)
    (h : applyEntry rows e = .ok rows') (i : Nat) :
    (rows'.get? i).map List.length = (rows.get? i).map List.length := by
  unfold applyEntry at h
  cases hr : rows.get? e.index with
  | none => rw [hr] at h; cases h
  | some r =>
    rw [hr] at h
    dsimp only at h
    by_cases h4 : 4 ≤ r.length
    · rw [if_pos h4] at h
      cases h
      by_cases hie : e.index = i
      · subst hie
        have hlt : e.index < rows.length := by
          by_contra hge
          rw [List.get?_eq_none.2 (Nat.le_of_not_lt hge)] at hr
          cases hr
        rw [List.get?_set_eq_of_lt _ hlt, hr]
        simp
      · rw [List.get?_set_ne _ _ hie]
    · rw [if_neg h4] at h; cases h

theorem applyEntries_get?_length (es : List Entry) :
    ∀ (rows : List (List String)) (i : Nat),
      ((applyEntries rows es).1.get? i).map List.length =
        (rows.get? i).map List.length := by
  induction es with
  | nil => intro rows i; rfl
  | cons e es ih =>
    intro rows i
    unfold applyEntries
    cases h : applyEntry rows e with
    | error m => rfl
    | ok rows2 =>
      dsimp only
      exact (ih rows2 i).trans (applyEntry_get?_length rows rows2 e h i)

theorem applyEntry_length (rows rows' : List (List String)) (e : Entry)
    (h : applyEntry rows e = .ok rows') : rows'.length = rows.length := by
  unfold applyEntry at h
  cases hr : rows.get? e.index with
  | none => rw [hr] at h; cases h
  | some r =>
    rw [hr] at h
    dsimp only at h
    by_cases h4 : 4 ≤ r.length
    · rw [if_pos h4] at h
      cases h
      exact List.length_set ..
    · rw [if_neg h4] at h; cases h

theorem applyEntries_length (es : List Entry) :
    ∀ rows : List (List String), (applyEntries rows es).1.length = rows.length := by
  induction es with
  | nil => intro rows; rfl
  | cons e es ih =>
    intro rows
    unfold applyEntries
    cases h : applyEntry rows e with
    | error m => rfl
    | ok rows2 =>
      dsimp only
      exact (ih rows2).trans (applyEntry_length rows rows2 e h)

theorem applyEntries_mem_length (es : List Entry) (rows : List (List String))
    (n : Nat) (hall : ∀ r ∈ rows, r.length = n) :
    ∀ r ∈ (applyEntries rows es).1, r.length = n := by
  intro r hr
  rcases List.mem_iff_get?.1 hr with ⟨i, hi⟩
  have hp := applyEntries_get?_length es rows i
  rw [hi] at hp
  cases ho : rows.get? i with
  | none => rw [ho] at hp; cases hp
  | some r0 =>
    rw [ho] at hp
    simp only [Option.map_some', Option.some.injEq] at hp
    rw [hp]
    exact hall r0 (List.get?_mem ho)

theorem applyEntries_cons_ok (rows rows2 : List (List String)) (e : Entry)
    (es : List Entry) (h : applyEntry rows e = .ok rows2) :
    applyEntries rows (e :: es) = applyEntries rows2 es := by
  simp only [applyEntries, h]

theorem applyEntries_cons_error (rows : List (List String)) (e : Entry)
    (es : List Entry) (m : String) (h : applyEntry rows e = .error m) :
    applyEntries rows (e :: es) = (rows, some m) := by
  simp only [applyEntries, h]

theorem applyEntries_ok_spec (es : List Entry) :
    ∀ rows : List (List String),
      (∀ r ∈ rows, 4 ≤ r.length) → (∀ e ∈ es, e.index < rows.length) →
      ((es.map Entry.index).Nodup) →
      (applyEntries rows es).2 = none ∧
      (∀ i, (∀ e ∈ es, e.index ≠ i) →
        (applyEntries rows es).1.get? i = rows.get? i) ∧
      (∀ e ∈ es, ∀ r, rows.get? e.index = some r →
        (applyEntries rows es).1.get? e.index =
          some ((r.set 2 (renderTypes e.threats)).set 3 (renderDescs e.threats))) := by
  induction es with
  | nil =>
    intro rows _ _ _
    refine ⟨rfl, fun i _ => rfl, fun e he => absurd he (List.not_mem_nil e)⟩
  | cons e es ih =>
    intro rows h4 hv hnd
    have hlt : e.index < rows.length := hv e (List.mem_cons_self e es)
    cases hr : rows.get? e.index with
    | none =>
      rw [List.get?_eq_none] at hr
      exact absurd hlt (Nat.not_lt.2 hr)
    | some r =>
      have hr4 : 4 ≤ r.length := h4 r (List.get?_mem hr)
      have hok := applyEntry_ok_of_valid rows e r hr hr4
      set rows2 := rows.set e.index
        ((r.set 2 (renderTypes e.threats)).set 3 (renderDescs e.threats)) with hrows2
      have hstep : applyEntries rows (e :: es) = applyEntries rows2 es :=
        applyEntries_cons_ok rows rows2 e es hok
      have h4' : ∀ r' ∈ rows2, 4 ≤ r'.length := by
        intro r' hr'
        rcases List.mem_iff_get?.1 hr' with ⟨i, hi⟩
        by_cases hie : e.index = i
        · subst hie
          rw [List.get?_set_eq_of_lt _ hlt] at hi
          cases hi
          simpa using hr4
        · rw [List.get?_set_ne _ _ hie] at hi
          exact h4 r' (List.get?_mem hi)
      have hv' : ∀ e' ∈ es, e'.index < rows2.length := by
        intro e' he'
        rw [hrows2, List.length_set]
        exact hv e' (List.mem_cons_of_mem e he')
      have hnd' : (es.map Entry.index).Nodup := (List.nodup_cons.1 hnd).2
      have hnotin : e.index ∉ es.map Entry.index := (List.nodup_cons.1 hnd).1
      obtain ⟨ihnone, ihskip, ihhit⟩ := ih rows2 h4' hv' hnd'
      refine ⟨by rw [hstep]; exact ihnone, ?_, ?_⟩
      · intro i hi
        rw [hstep, ihskip i (fun e' he' => hi e' (List.mem_cons_of_mem e he')),
          hrows2, List.get?_set_ne _ _ (hi e (List.mem_cons_self e es))]
      · intro e' he' r' hr'
        rcases List.mem_cons.1 he' with he0 | hes
        · subst he0
          rw [hr] at hr'
          cases hr'
          rw [hstep, ihskip e'.index ?_, hrows2, List.get?_set_eq_of_lt _ hlt]
          intro e2 he2 he2eq
          exact hnotin (he2eq ▸ List.mem_map_of_mem Entry.index he2)
        · have hne : e.index ≠ e'.index := by
            intro hcontra
            exact hnotin (hcontra ▸ List.mem_map_of_mem Entry.index hes)
          have hr2 : rows2.get? e'.index = some r' := by
            rw [hrows2, List.get?_set_ne _ _ hne]
            exact hr'
          rw [hstep]
          exact ihhit e' hes r' hr2

theorem applyEntries_abort (bad : Entry) (es2 : List Entry) :
    ∀ (es1 : List Entry) (rows : List (List String)),
      (∀ r ∈ rows, 4 ≤ r.length) → (∀ e ∈ es1, e.index < rows.length) →
      rows.length ≤ bad.index →
      applyEntries rows (es1 ++ bad :: es2) =
        ((applyEntries rows es1).1, some cellsTypeError) := by
  intro es1
  induction es1 with
  | nil =>
    intro rows _ _ hbad
    have hnone : rows.get? bad.index = none := List.get?_eq_none.2 hbad
    have herr : applyEntry rows bad = .error cellsTypeError := by
      unfold applyEntry
      rw [hnone]
    simp only [List.nil_append]
    rw [applyEntries_cons_error rows bad es2 cellsTypeError herr]
    rfl
  | cons e es1 ih =>
    intro rows h4 hv hbad
    have hlt : e.index < rows.length := hv e (List.mem_cons_self e es1)
    cases hr : rows.get? e.index with
    | none =>
      rw [List.get?_eq_none] at hr
      exact absurd hlt (Nat.not_lt.2 hr)
    | some r =>
      have hr4 : 4 ≤ r.length := h4 r (List.get?_mem hr)
      have hok := applyEntry_ok_of_valid rows e r hr hr4
      set rows2 := rows.set e.index
        ((r.set 2 (renderTypes e.threats)).set 3 (renderDescs e.threats)) with hrows2
      have h4' : ∀ r' ∈ rows2, 4 ≤ r'.length := by
        intro r' hr'
        rcases List.mem_iff_get?.1 hr' with ⟨i, hi⟩
        by_cases hie : e.index = i
        · subst hie
          rw [List.get?_set_eq_of_lt _ hlt] at hi
          cases hi
          simpa using hr4
        · rw [List.get?_set_ne _ _ hie] at hi
          exact h4 r' (List.get?_mem hi)
      have hv' : ∀ e' ∈ es1, e'.index < rows2.length := by
        intro e' he'
        rw [hrows2, List.length_set]
        exact hv e' (List.mem_cons_of_mem e he')
      have hbad' : rows2.length ≤ bad.index := by
        rw [hrows2, List.length_set]
        exact hbad
      have hstep : applyEntries rows ((e :: es1) ++ bad :: es2) =
          applyEntries rows2 (es1 ++ bad :: es2) := by
        rw [List.cons_append]
        exact applyEntries_cons_ok rows rows2 e (es1 ++ bad :: es2) hok
      have hstep1 : applyEntries rows (e :: es1) = applyEntries rows2 es1 :=
        applyEntries_cons_ok rows rows2 e es1 hok
      rw [hstep, hstep1]
      exact ih rows2 h4' hv' hbad'

theorem submit_of_empty (t : Table) (k : String) (o : FetchOutcome)
    (hk : jsTrim k = "") : submit t k o = ⟨t, some "API key required.", none⟩ := by
  simp only [submit]
  rw [hk]
  simp

theorem submit_netFail (t : Table) (k m : String) (hk : jsTrim k ≠ "") :
    submit t k (.netFail m) =
      ⟨t, some m, some (mkRequest (jsTrim k) (promptOf (snapshot t)))⟩ := by
  simp only [submit]
  rw [if_neg hk]

theorem submit_parseFail (t : Table) (k m : String) (ok : Bool)
    (hk : jsTrim k ≠ "") :
    submit t k (.got ⟨ok, .parseFail m⟩) =
      ⟨t, some m, some (mkRequest (jsTrim k) (promptOf (snapshot t)))⟩ := by
  simp only [submit]
  rw [if_neg hk]

theorem submit_notOk (t : Table) (k : String) (b : Body) (hk : jsTrim k ≠ "") :
    submit t k (.got ⟨false, .parsed b⟩) =
      ⟨t, some (orRequestFailed b.errorMsg),
        some (mkRequest (jsTrim k) (promptOf (snapshot t)))⟩ := by
  simp only [submit]
  rw [if_neg hk]
  simp

theorem submit_noPayload (t : Table) (k : String) (b : Body)
    (hk : jsTrim k ≠ "") (hb : b.payload = none) :
    submit t k (.got ⟨true, .parsed b⟩) =
      ⟨t, some "Failed to parse AI response.",
        some (mkRequest (jsTrim k) (promptOf (snapshot t)))⟩ := by
  simp only [submit]
  rw [if_neg hk]
  simp [hb]

theorem submit_applies (t : Table) (k : String) (b : Body) (es : List Entry)
    (hk : jsTrim k ≠ "") (hb : b.payload = some es) :
    submit t k (.got ⟨true, .parsed b⟩) =
      ⟨⟨(insertThreatColumns t).header,
          (applyEntries (insertThreatColumns t).rows es).1⟩,
        (applyEntries (insertThreatColumns t).rows es).2,
        some (mkRequest (jsTrim k) (promptOf (snapshot t)))⟩ := by
  simp only [submit]
  rw [if_neg hk]
  simp [hb]

theorem submit_request_of_nonempty (t : Table) (k : String) (o : FetchOutcome)
    (hk : jsTrim k ≠ "") :
    (submit t k o).request = some (mkRequest (jsTrim k) (promptOf (snapshot t))) := by
  cases o with
  | netFail m => rw [submit_netFail t k m hk]
  | got r =>
    rcases r with ⟨ok, body⟩
    cases body with
    | parseFail m => rw [submit_parseFail t k m ok hk]
    | parsed b =>
      cases ok with
      | false => rw [submit_notOk t k b hk]
      | true =>
        cases hb : b.payload with
        | none => rw [submit_noPayload t k b hk hb]
        | some es => rw [submit_applies t k b es hk hb]

theorem submit_table_of_fails (t : Table) (k : String) (o : FetchOutcome)
    (h : failsBeforeApply o = true) : (submit t k o).table = t := by
  by_cases hk : jsTrim k = ""
  · rw [submit_of_empty t k o hk]
  · cases o with
    | netFail m => rw [submit_netFail t k m hk]
    | got r =>
      rcases r with ⟨ok, body⟩
      cases body with
      | parseFail m => rw [submit_parseFail t k m ok hk]
      | parsed b =>
        cases ok with
        | false => rw [submit_notOk t k b hk]
        | true =>
          cases hb : b.payload with
          | none => rw [submit_noPayload t k b hk hb]
          | some es =>
            exfalso
            simp [failsBeforeApply, hb] at h

theorem insertThreatColumns_spec (t : Table) (h : aligned t) :
    (insertThreatColumns t).header.length = 4 ∧
    ∀ r ∈ (insertThreatColumns t).rows, r.length = 4 := by
  obtain ⟨h2 | h4, hr⟩ := h
  · unfold insertThreatColumns
    rw [if_pos h2]
    constructor
    · simp [h2]
    · intro r hmem
      rcases List.mem_map.1 hmem with ⟨r0, hr0, rfl⟩
      simp [hr r0 hr0, h2]
  · unfold insertThreatColumns
    rw [if_neg (by omega)]
    exact ⟨h4, fun r hmem => (hr r hmem).trans h4⟩

theorem step_aligned (t : Table) (op : Op) (h : aligned t) : aligned (step t op) := by
  obtain ⟨hh, hr⟩ := h
  cases op with
  | addRowOp =>
    refine ⟨hh, ?_⟩
    intro r hmem
    simp only [step, addRow] at hmem ⊢
    rcases List.mem_append.1 hmem with hm | hm
    · exact hr r hm
    · rw [List.mem_singleton] at hm
      subst hm
      rcases hh with h2 | h4
      · rw [h2]
        simp [h2]
      · rw [h4]
        simp [h4]
  | submitOp k o =>
    by_cases hk : jsTrim k = ""
    · simp only [step]
      rw [submit_of_empty t k o hk]
      exact ⟨hh, hr⟩
    · cases o with
      | netFail m =>
        simp only [step]
        rw [submit_netFail t k m hk]
        exact ⟨hh, hr⟩
      | got r =>
        rcases r with ⟨ok, body⟩
        cases body with
        | parseFail m =>
          simp only [step]
          rw [submit_parseFail t k m ok hk]
          exact ⟨hh, hr⟩
        | parsed b =>
          cases ok with
          | false =>
            simp only [step]
            rw [submit_notOk t k b hk]
            exact ⟨hh, hr⟩
          | true =>
            cases hb : b.payload with
            | none =>
              simp only [step]
              rw [submit_noPayload t k b hk hb]
              exact ⟨hh, hr⟩
            | some es =>
              simp only [step]
              rw [submit_applies t k b es hk hb]
              obtain ⟨hih, hir⟩ := insertThreatColumns_spec t ⟨hh, hr⟩
              refine ⟨Or.inr hih, ?_⟩
              intro r hmem
              rw [hih]
              exact applyEntries_mem_length es (insertThreatColumns t).rows 4 hir r hmem

theorem foldl_step_aligned (ops : List Op) :
    ∀ t : Table, aligned t → aligned (ops.foldl step t) := by
  induction ops with
  | nil => intro t h; exact h
  | cons op ops ih =>
    intro t h
    exact ih (step t op) (step_aligned t op h)

theorem initTable_aligned : aligned initTable := by
  constructor
  · left; rfl
  · intro r hmem
    cases hmem

theorem run_aligned (ops : List Op) : aligned (run ops) :=
  foldl_step_aligned ops initTable initTable_aligned

theorem step_header_four (t : Table) (op : Op) (h4 : t.header.length = 4) :
    (step t op).header.length = 4 := by
  cases op with
  | addRowOp => exact h4
  | submitOp k o =>
    by_cases hk : jsTrim k = ""
    · simp only [step]
      rw [submit_of_empty t k o hk]
      exact h4
    · cases o with
      | netFail m =>
        simp only [step]
        rw [submit_netFail t k m hk]
        exact h4
      | got r =>
        rcases r with ⟨ok, body⟩
        cases body with
        | parseFail m =>
          simp only [step]
          rw [submit_parseFail t k m ok hk]
          exact h4
        | parsed b =>
          cases ok with
          | false =>
            simp only [step]
            rw [submit_notOk t k b hk]
            exact h4
          | true =>
            cases hb : b.payload with
            | none =>
              simp only [step]
              rw [submit_noPayload t k b hk hb]
              exact h4
            | some es =>
              simp only [step]
              rw [submit_applies t k b es hk hb]
              simp only [insertThreatColumns]
              rw [if_neg (by omega)]
              exact h4

theorem submit_header_four_of_reachesApply (t : Table) (k : String)
    (o : FetchOutcome) (hal : aligned t) (h : reachesApply k o = true) :
    (submit t k o).table.header.length = 4 := by
  have hk : jsTrim k ≠ "" := by
    intro hcontra
    simp [reachesApply, hcontra] at h
  cases o with
  | netFail m => simp [reachesApply] at h
  | got r =>
    rcases r with ⟨ok, body⟩
    cases body with
    | parseFail m => simp [reachesApply] at h
    | parsed b =>
      cases ok with
      | false => simp [reachesApply] at h
      | true =>
        cases hb : b.payload with
        | none => simp [reachesApply, hb] at h
        | some es =>
          rw [submit_applies t k b es hk hb]
          exact (insertThreatColumns_spec t hal).1

theorem insertThreatColumns_rows_length (t : Table) :
    (insertThreatColumns t).rows.length = t.rows.length := by
  unfold insertThreatColumns
  split <;> simp

theorem submit_header_of_no_apply (t : Table) (k : String) (o : FetchOutcome)
    (h : reachesApply k o = false) : (submit t k o).table.header = t.header := by
  by_cases hk : jsTrim k = ""
  · rw [submit_of_empty t k o hk]
  · cases o with
    | netFail m => rw [submit_netFail t k m hk]
    | got r =>
      rcases r with ⟨ok, body⟩
      cases body with
      | parseFail m => rw [submit_parseFail t k m ok hk]
      | parsed b =>
        cases ok with
        | false => rw [submit_notOk t k b hk]
        | true =>
          cases hb : b.payload with
          | none => rw [submit_noPayload t k b hk hb]
          | some es =>
            exfalso
            simp [reachesApply, hb, hk] at h

theorem step_header_of_no_apply (t : Table) (op : Op)
    (h : opReachesApply op = false) : (step t op).header = t.header := by
  cases op with
  | addRowOp => rfl
  | submitOp k o => exact submit_header_of_no_apply t k o h

theorem foldl_header_of_no_apply :
    ∀ ops : List Op, (∀ op ∈ ops, opReachesApply op = false) →
      ∀ t : Table, (ops.foldl step t).header = t.header := by
  intro ops
  induction ops with
  | nil => intro _ t; rfl
  | cons op ops ih =>
    intro h t
    rw [List.foldl_cons,
      ih (fun o ho => h o (List.mem_cons_of_mem op ho)) (step t op),
      step_header_of_no_apply t op (h op (List.mem_cons_self op ops))]

/- ### Claims -/

/-- C1 (counterexample): the claim says an out-of-range entry is skipped,
no error is raised for the batch, and valid entries of the same batch are
still applied.  On a 2-row store and the response
`[{index:5,...},{index:0,...}]` the code raises the TypeError for the
batch and does not apply the valid entry for row 0 (its threat cells stay
empty). -/
theorem C1_counterexample :
    (submit ⟨["Attack Surface", "Description"], [["a", "b"], ["c", "d"]]⟩ "key"
      (FetchOutcome.got ⟨true, BodyResult.parsed
        ⟨none, some [⟨5, [⟨"forgery", "x"⟩]⟩, ⟨0, [⟨"trojan", "y"⟩]⟩]⟩⟩)).errorText
      = some cellsTypeError ∧
    (submit ⟨["Attack Surface", "Description"], [["a", "b"], ["c", "d"]]⟩ "key"
      (FetchOutcome.got ⟨true, BodyResult.parsed
        ⟨none, some [⟨5, [⟨"forgery", "x"⟩]⟩, ⟨0, [⟨"trojan", "y"⟩]⟩]⟩⟩)).table.rows
      = [["a", "b", "", ""], ["c", "d", "", ""]] := by
  constructor <;> rfl

/-- C1 (amended): an entry whose index does not correspond to an existing
row aborts the application of the batch at that entry: the entries before
it in the response are applied, it and all later entries are not, and the
TypeError is surfaced as the error of the whole batch. -/
theorem C1_amended (t : Table) (k : String) (b : Body)
    (es1 es2 : List Entry) (bad : Entry)
    (hal : aligned t) (hk : jsTrim k ≠ "")
    (hb : b.payload = some (es1 ++ bad :: es2))
    (h1 : ∀ e ∈ es1, e.index < t.rows.length)
    (hbad : t.rows.length ≤ bad.index) :
    (submit t k (.got ⟨true, .parsed b⟩)).errorText = some cellsTypeError ∧
    (submit t k (.got ⟨true, .parsed b⟩)).table.rows =
      (applyEntries (insertThreatColumns t).rows es1).1 := by
  have hins := insertThreatColumns_spec t hal
  have hlen := insertThreatColumns_rows_length t
  have h4 : ∀ r ∈ (insertThreatColumns t).rows, 4 ≤ r.length :=
    fun r hr => le_of_eq (hins.2 r hr).symm
  have hv : ∀ e ∈ es1, e.index < (insertThreatColumns t).rows.length := by
    intro e he
    rw [hlen]
    exact h1 e he
  have habort := applyEntries_abort bad es2 es1 (insertThreatColumns t).rows h4 hv
    (by rw [hlen]; exact hbad)
  rw [submit_applies t k b (es1 ++ bad :: es2) hk hb, habort]
  exact ⟨rfl, rfl⟩

/-- C1_amended at a concrete input: 2-row store, response with a valid
entry for row 0 followed by an out-of-range entry for row 5. -/
theorem C1_amended_witness :
    (submit ⟨["Attack Surface", "Description"], [["a", "b"], ["c", "d"]]⟩ "key"
      (.got ⟨true, .parsed
        ⟨none, some [⟨0, [⟨"trojan", "y"⟩]⟩, ⟨5, [⟨"forgery", "x"⟩]⟩]⟩⟩)).errorText
      = some cellsTypeError ∧
    (submit ⟨["Attack Surface", "Description"], [["a", "b"], ["c", "d"]]⟩ "key"
      (.got ⟨true, .parsed
        ⟨none, some [⟨0, [⟨"trojan", "y"⟩]⟩, ⟨5, [⟨"forgery", "x"⟩]⟩]⟩⟩)).table.rows
      = (applyEntries
          (insertThreatColumns
            ⟨["Attack Surface", "Description"], [["a", "b"], ["c", "d"]]⟩).rows
          [⟨0, [⟨"trojan", "y"⟩]⟩]).1 :=
  C1_amended ⟨["Attack Surface", "Description"], [["a", "b"], ["c", "d"]]⟩ "key"
    ⟨none, some [⟨0, [⟨"trojan", "y"⟩]⟩, ⟨5, [⟨"forgery", "x"⟩]⟩]⟩
    [⟨0, [⟨"trojan", "y"⟩]⟩] [] ⟨5, [⟨"forgery", "x"⟩]⟩
    (by constructor <;> decide) (by decide) rfl (by decide) (by decide)

/-- C2: every submission that fails with a transport error (fetch
rejection, unparsable response body, or non-ok status, the latter carrying
the provider's error message when present and non-empty) or with an inner
payload that cannot be parsed as JSON leaves the Row Store unchanged: the
table, its rows and its columns after the failed submission are exactly
those from before it. -/
theorem C2_failed_submission_preserves_store (t : Table) (k : String)
    (o : FetchOutcome) (h : failsBeforeApply o = true) :
    (submit t k o).table = t ∧
    (∀ m, o = FetchOutcome.netFail m → jsTrim k ≠ "" →
      (submit t k o).errorText = some m) ∧
    (∀ b m, o = FetchOutcome.got ⟨false, .parsed b⟩ → b.errorMsg = some m →
      m ≠ "" → jsTrim k ≠ "" → (submit t k o).errorText = some m) ∧
    (∀ b, o = FetchOutcome.got ⟨true, .parsed b⟩ → b.payload = none →
      jsTrim k ≠ "" →
      (submit t k o).errorText = some "Failed to parse AI response.") := by
  refine ⟨submit_table_of_fails t k o h, ?_, ?_, ?_⟩
  · intro m ho hk
    subst ho
    rw [submit_netFail t k m hk]
  · intro b m ho hm hne hk
    subst ho
    rw [submit_notOk t k b hk]
    simp [orRequestFailed, hm, hne]
  · intro b ho hb hk
    subst ho
    rw [submit_noPayload t k b hk hb]

/-- C2 at a concrete input: a response whose inner payload is not valid
JSON leaves the one-row store byte-for-byte unchanged. -/
theorem C2_witness :
    (submit ⟨["Attack Surface", "Description"], [["a", "b"]]⟩ "key"
      (FetchOutcome.got ⟨true, BodyResult.parsed ⟨none, none⟩⟩)).table =
      ⟨["Attack Surface", "Description"], [["a", "b"]]⟩ :=
  (C2_failed_submission_preserves_store
    ⟨["Attack Surface", "Description"], [["a", "b"]]⟩ "key"
    (FetchOutcome.got ⟨true, BodyResult.parsed ⟨none, none⟩⟩) (by decide)).1

/-- C3: submitting with the empty credential fails immediately with the
missing-credential message, performs no network call (no request is
issued), and leaves the Row Store unchanged. -/
theorem C3_empty_credential (t : Table) (o : FetchOutcome) :
    submit t "" o = ⟨t, some "API key required.", none⟩ :=
  submit_of_empty t "" o rfl

/-- C4 (counterexample): the claim says the request is directed to the
override endpoint when one is supplied.  The spec-modelled URL selection
with an override supplied differs from the URL of every request the code
builds, which is the fixed default: no override behaviour exists in the
code. -/
theorem C4_counterexample :
    specSubmitUrl (some "https://llm.example.com/v1/responses") ≠
      (mkRequest "key" "prompt").url := by decide

/-- C4 (amended): `submit` takes no endpoint override; every submission
with a non-empty (trimmed) credential issues exactly one HTTP POST
request, always directed to the fixed default base URL. -/
theorem C4_amended (t : Table) (k : String) (o : FetchOutcome)
    (hk : jsTrim k ≠ "") :
    (submit t k o).request = some (mkRequest (jsTrim k) (promptOf (snapshot t))) ∧
    (∀ req, (submit t k o).request = some req →
      req.url = baseUrl ∧ req.method = "POST" ∧ req.url = specSubmitUrl none) := by
  have h := submit_request_of_nonempty t k o hk
  refine ⟨h, ?_⟩
  intro req hreq
  rw [h] at hreq
  cases hreq
  exact ⟨rfl, rfl, rfl⟩

/-- C4_amended at a concrete input. -/
theorem C4_amended_witness :
    (submit initTable "key" (.netFail "boom")).request =
      some (mkRequest (jsTrim "key") (promptOf (snapshot initTable))) ∧
    (∀ req, (submit initTable "key" (.netFail "boom")).request = some req →
      req.url = baseUrl ∧ req.method = "POST" ∧ req.url = specSubmitUrl none) :=
  C4_amended initTable "key" (.netFail "boom") (by decide)

/-- C5: the prompt built over any row snapshot contains the 12 taxonomy
categories rendered as `id: description` lines joined in the fixed
declaration order, and every snapshotted row rendered as
`#<index>: <surface> - <description>` lines joined in ascending index
order (snapshot indices are exactly `0..N-1` in order); the prompt is the
input of the single request `submit` issues. -/
theorem C5_prompt (t : Table) :
    categories.length = 12 ∧
    (joinNl (categories.map categoryLine)).data <:+: (promptOf (snapshot t)).data ∧
    (∀ c ∈ categories, (categoryLine c).data <:+: (promptOf (snapshot t)).data) ∧
    (joinNl ((snapshot t).map rowLine)).data <:+: (promptOf (snapshot t)).data ∧
    (∀ r ∈ snapshot t, (rowLine r).data <:+: (promptOf (snapshot t)).data) ∧
    (snapshot t).map SnapRow.index = List.range t.rows.length ∧
    (∀ k o, jsTrim k ≠ "" →
      ∃ req, (submit t k o).request = some req ∧
        req.input = promptOf (snapshot t)) := by
  refine ⟨rfl, catBlock_in_prompt _, ?_, rowBlock_in_prompt _, ?_, snapshot_map_index t, ?_⟩
  · intro c hc
    exact (joinNl_infix_of_mem _ _ (List.mem_map_of_mem categoryLine hc)).trans
      (catBlock_in_prompt _)
  · intro r hr
    exact (joinNl_infix_of_mem _ _ (List.mem_map_of_mem rowLine hr)).trans
      (rowBlock_in_prompt _)
  · intro k o hk
    exact ⟨_, submit_request_of_nonempty t k o hk, rfl⟩

/-- C5 at a concrete input: the request of a concrete submission carries
the prompt built from the snapshot. -/
theorem C5_witness :
    ∃ req, (submit initTable "key" (.netFail "boom")).request = some req ∧
      req.input = promptOf (snapshot initTable) :=
  (C5_prompt initTable).2.2.2.2.2.2 "key" (.netFail "boom") (by decide)

/-- C6: on a store with exactly one row, applying the well-formed response
`[{index:0, threats:[{type, description}]}]` fills row 0's threat cells
with exactly that type and description — any type string accepted as-is,
with no validation against the taxonomy — raises no error, and touches no
other cell of the row. -/
theorem C6_single_row_applied (s d ty dx k : String) (hk : jsTrim k ≠ "") :
    submit ⟨["Attack Surface", "Description"], [[s, d]]⟩ k
        (.got ⟨true, .parsed ⟨none, some [⟨0, [⟨ty, dx⟩]⟩]⟩⟩) =
      ⟨⟨["Attack Surface", "Description", "Threat Type", "Threat Description"],
          [[s, d, ty, dx]]⟩, none,
        some (mkRequest (jsTrim k)
          (promptOf (snapshot ⟨["Attack Surface", "Description"], [[s, d]]⟩)))⟩ := by
  rw [submit_applies _ k _ _ hk rfl]
  rfl

/-- C6 at the concrete input of the claim: response
`[{"index":0,"threats":[{"type":"forgery","description":"x"}]}]`. -/
theorem C6_witness :
    submit ⟨["Attack Surface", "Description"], [["login", "user login"]]⟩ "key"
        (.got ⟨true, .parsed ⟨none, some [⟨0, [⟨"forgery", "x"⟩]⟩]⟩⟩) =
      ⟨⟨["Attack Surface", "Description", "Threat Type", "Threat Description"],
          [["login", "user login", "forgery", "x"]]⟩, none,
        some (mkRequest (jsTrim "key")
          (promptOf (snapshot ⟨["Attack Surface", "Description"],
            [["login", "user login"]]⟩)))⟩ :=
  C6_single_row_applied "login" "user login" "forgery" "x" "key" (by decide)

/-- C7: iterating `add_row` n times from the empty store yields exactly n
rows, each with empty surface, description and threats (a fresh two-cell
row), with snapshot indices exactly `0..n-1` in positional order. -/
theorem C7_addRow_iterates (n : Nat) :
    addRow^[n] initTable =
      ⟨["Attack Surface", "Description"], List.replicate n ["", ""]⟩ ∧
    (addRow^[n] initTable).rows.length = n ∧
    (∀ r ∈ (addRow^[n] initTable).rows, r = ["", ""]) ∧
    ((snapshot (addRow^[n] initTable)).map SnapRow.index = List.range n) ∧
    (∀ r ∈ snapshot (addRow^[n] initTable),
      r.surface = "" ∧ r.description = "") := by
  have hmain : ∀ m : Nat, addRow^[m] initTable =
      ⟨["Attack Surface", "Description"], List.replicate m ["", ""]⟩ := by
    intro m
    induction m with
    | zero => rfl
    | succ m ih =>
      rw [Function.iterate_succ_apply', ih]
      unfold addRow
      simp [initTable, List.replicate_succ']
  refine ⟨hmain n, ?_, ?_, ?_, ?_⟩
  · rw [hmain n]
    simp
  · intro r hr
    rw [hmain n] at hr
    exact List.eq_of_mem_replicate hr
  · rw [snapshot_map_index, hmain n]
    simp
  · intro r hr
    rcases snapshot_mem _ r hr with ⟨row, hrow, hs, hd⟩
    rw [hmain n] at hrow
    have : row = ["", ""] := List.eq_of_mem_replicate hrow
    subst this
    rw [hs, hd]
    exact ⟨rfl, rfl⟩

/-- C7 at a concrete input: three clicks of "add row". -/
theorem C7_witness :
    addRow^[3] initTable =
      ⟨["Attack Surface", "Description"], [["", ""], ["", ""], ["", ""]]⟩ :=
  (C7_addRow_iterates 3).1

/-- C8: applying a successful classification response with valid, pairwise
distinct indices raises no error; every row referenced in the response has
its threat cells replaced wholesale with the rendering of that entry
(regardless of any prior value) while its surface and description cells
are untouched; and every row omitted from the response is entirely
unchanged. -/
theorem C8_wholesale_and_frame (rows : List (List String)) (es : List Entry)
    (h4 : ∀ r ∈ rows, 4 ≤ r.length) (hv : ∀ e ∈ es, e.index < rows.length)
    (hnd : (es.map Entry.index).Nodup) :
    (applyEntries rows es).2 = none ∧
    (∀ i, (∀ e ∈ es, e.index ≠ i) →
      (applyEntries rows es).1.get? i = rows.get? i) ∧
    (∀ e ∈ es, ∀ r, rows.get? e.index = some r →
      ∃ r', (applyEntries rows es).1.get? e.index = some r' ∧
        r'.get? 0 = r.get? 0 ∧ r'.get? 1 = r.get? 1 ∧
        r'.get? 2 = some (renderTypes e.threats) ∧
        r'.get? 3 = some (renderDescs e.threats)) := by
  obtain ⟨hnone, hskip, hhit⟩ := applyEntries_ok_spec es rows h4 hv hnd
  refine ⟨hnone, hskip, ?_⟩
  intro e he r hr
  have hr4 : 4 ≤ r.length := h4 r (List.get?_mem hr)
  refine ⟨(r.set 2 (renderTypes e.threats)).set 3 (renderDescs e.threats),
    hhit e he r hr, ?_, ?_, ?_, ?_⟩
  · rw [List.get?_set_ne _ _ (by omega), List.get?_set_ne _ _ (by omega)]
  · rw [List.get?_set_ne _ _ (by omega), List.get?_set_ne _ _ (by omega)]
  · rw [List.get?_set_ne _ _ (by omega)]
    have h2 : 2 < r.length := by omega
    rw [List.get?_set_eq_of_lt _ h2]
  · have h3 : 3 < (r.set 2 (renderTypes e.threats)).length := by
      rw [List.length_set]
      omega
    rw [List.get?_set_eq_of_lt _ h3]

/-- C8 at a concrete input: two rows, one entry for row 1; row 0 is
unchanged and row 1's threat cells are replaced. -/
theorem C8_witness :
    (applyEntries [["a", "b", "t0", "d0"], ["c", "d", "t1", "d1"]]
        [⟨1, [⟨"guessing", "g"⟩]⟩]).2 = none ∧
    (applyEntries [["a", "b", "t0", "d0"], ["c", "d", "t1", "d1"]]
        [⟨1, [⟨"guessing", "g"⟩]⟩]).1.get? 0 =
      some ["a", "b", "t0", "d0"] := by
  have h := C8_wholesale_and_frame
    [["a", "b", "t0", "d0"], ["c", "d", "t1", "d1"]]
    [⟨1, [⟨"guessing", "g"⟩]⟩] (by decide) (by decide) (by decide)
  exact ⟨h.1, h.2.1 0 (by decide)⟩

/-- C9: the snapshot's surface and description fields are the
whitespace-trimmed cell texts (so they carry no leading or trailing
whitespace), and the credential is trimmed before the emptiness check, so
a whitespace-only credential is rejected as missing with no network
call. -/
theorem C9_trim (t : Table) (k : String) (o : FetchOutcome)
    (hk : ∀ c ∈ k.data, c.isWhitespace = true) :
    (∀ r ∈ snapshot t, noEdgeWs r.surface ∧ noEdgeWs r.description) ∧
    (∀ r ∈ snapshot t, ∃ row ∈ t.rows,
      r.surface = jsTrim ((row.get? 0).getD "") ∧
      r.description = jsTrim ((row.get? 1).getD "")) ∧
    submit t k o = ⟨t, some "API key required.", none⟩ := by
  refine ⟨?_, fun r hr => snapshot_mem t r hr,
    submit_of_empty t k o (jsTrim_of_allWs k hk)⟩
  intro r hr
  rcases snapshot_mem t r hr with ⟨row, _, hs, hd⟩
  rw [hs, hd]
  exact ⟨jsTrim_noEdgeWs _, jsTrim_noEdgeWs _⟩

/-- C9 at a concrete input: a whitespace-only credential is rejected with
no request issued. -/
theorem C9_witness :
    submit ⟨["Attack Surface", "Description"], [["  a  ", " b"]]⟩ "   "
        (.netFail "boom") =
      ⟨⟨["Attack Surface", "Description"], [["  a  ", " b"]]⟩,
        some "API key required.", none⟩ :=
  (C9_trim ⟨["Attack Surface", "Description"], [["  a  ", " b"]]⟩ "   "
    (.netFail "boom") (by decide)).2.2

/-- C10: after any sequence of operations from the fresh page, the header
has 2 or 4 cells and every body row has exactly as many cells as the
header.  The count is 2 before the first successful classification: every
operation that is not a submission reaching the apply phase (add-row, or a
failed submission) leaves the header cells unchanged, so a sequence with
no such submission still has a 2-cell header.  A submission that reaches
the apply phase leaves the header at 4 cells, and once the header has 4
cells it stays at 4 under every further operation (the output columns are
inserted at most once, at that moment). -/
theorem C10_column_invariant (ops : List Op) :
    ((run ops).header.length = 2 ∨ (run ops).header.length = 4) ∧
    (∀ r ∈ (run ops).rows, r.length = (run ops).header.length) ∧
    (∀ k o, reachesApply k o = true →
      (run (ops ++ [Op.submitOp k o])).header.length = 4) ∧
    (∀ op, (run ops).header.length = 4 →
      (run (ops ++ [op])).header.length = 4) ∧
    (∀ op, opReachesApply op = false →
      (run (ops ++ [op])).header = (run ops).header) ∧
    ((∀ op ∈ ops, opReachesApply op = false) →
      (run ops).header.length = 2) := by
  obtain ⟨hh, hr⟩ := run_aligned ops
  have hstep : ∀ op, run (ops ++ [op]) = step (run ops) op := by
    intro op
    unfold run
    rw [List.foldl_append]
    rfl
  refine ⟨hh, hr, ?_, ?_, ?_, ?_⟩
  · intro k o hre
    rw [hstep (Op.submitOp k o)]
    exact submit_header_four_of_reachesApply (run ops) k o (run_aligned ops) hre
  · intro op h4
    rw [hstep op]
    exact step_header_four (run ops) op h4
  · intro op hop
    rw [hstep op]
    exact step_header_of_no_apply (run ops) op hop
  · intro hops
    rw [show run ops = ops.foldl step initTable from rfl,
      foldl_header_of_no_apply ops hops initTable]
    rfl

/-- C10 at concrete inputs: after an added row and a failed submission the
header still has 2 cells; after an added row and a successful
classification it has 4. -/
theorem C10_witness :
    (run [Op.addRowOp, Op.submitOp "key" (.netFail "boom")]).header.length = 2 ∧
    (run ([Op.addRowOp] ++
      [Op.submitOp "key" (.got ⟨true, .parsed ⟨none, some []⟩⟩)])).header.length = 4 :=
  ⟨(C10_column_invariant
      [Op.addRowOp, Op.submitOp "key" (.netFail "boom")]).2.2.2.2.2 (by decide),
   (C10_column_invariant [Op.addRowOp]).2.2.1 "key"
    (.got ⟨true, .parsed ⟨none, some []⟩⟩) (by decide)⟩

end ThreatModeling
